/-
Verification of the Visage face-authentication service against its
specification.

The Rust sources are shallowly embedded in Lean 4:
  * `f32` values are modelled as exact rationals (`ℚ`); machine floating
    point rounding is idealized away, as the claims under scrutiny are about
    control flow, counting, and exact pixel/byte manipulation.
  * The only transcendental operation the matcher uses, `f32::sqrt`, is
    taken as an explicit function parameter `sqrtF : ℚ → ℚ` threaded through
    the similarity computation; no verified statement depends on its values.
  * External effects (the PAM framework, the D-Bus daemon, V4L2 dequeues,
    the two ONNX networks, the process environment) appear as explicit
    function-valued parameters, so every embedded operation is a pure,
    executable Lean function.

Sections follow the crate layout: visage-hw/frame.rs, visage-core
(types.rs, detector.rs, alignment.rs), visage-hw/camera.rs,
visaged (engine.rs, config.rs), and pam-visage/lib.rs.
-/
import Mathlib

namespace Visage

/-- Model of Rust `f32` as exact rationals. -/
abbrev F : Type := ℚ

/-! ## visage-hw/src/frame.rs -/

/-- Error type from `frame.rs` (`FrameError::InvalidLength`). -/
inductive FrameError where
  | InvalidLength (expected actual : Nat) : FrameError
deriving DecidableEq, Repr

/-- `.iter().step_by(2)`: every even-indexed element of a list. -/
def everyEven : List Nat → List Nat
  | [] => []
  | [a] => [a]
  | a :: _ :: rest => a :: everyEven rest

/-- `yuyv_to_grayscale` from frame.rs: validate that the input holds at
least `2·w·h` bytes, then keep every even-indexed byte of the first
`2·w·h` bytes (the Y plane of packed YUYV 4:2:2). -/
def yuyv_to_grayscale (yuyv : List Nat) (width height : Nat) :
    Except FrameError (List Nat) :=
  let expected := width * height * 2
  if yuyv.length < expected then
    .error (.InvalidLength expected yuyv.length)
  else
    .ok (everyEven (yuyv.take expected))

/-- `is_dark_frame` from frame.rs: an empty frame is dark; otherwise the
frame is dark when the fraction of pixels strictly below 32 strictly
exceeds `threshold_pct`. -/
def is_dark_frame (gray : List Nat) (threshold_pct : F) : Bool :=
  if gray.isEmpty then
    true
  else
    decide (((gray.countP (fun p => p < 32) : Nat) : F) / ((gray.length : Nat) : F) > threshold_pct)

/-! ## visage-core/src/types.rs -/

/-- `Embedding` from types.rs: vector of f32 values plus model version tag. -/
structure Embedding where
  values : List F
  model_version : Option String
deriving Repr

/-- `Embedding::similarity` from types.rs: one pass accumulating
`dot`, `norm_a`, `norm_b` over the zipped value lists, then
`dot / (norm_a.sqrt() * norm_b.sqrt())`, or `0.0` when the denominator is
not positive.  `f32::sqrt` is supplied as the parameter `sqrtF`. -/
def Embedding.similarity (sqrtF : F → F) (a b : Embedding) : F :=
  let acc := (a.values.zip b.values).foldl
    (fun (acc : F × F × F) (p : F × F) =>
      (acc.1 + p.1 * p.2, acc.2.1 + p.1 * p.1, acc.2.2 + p.2 * p.2))
    (0, 0, 0)
  let denom := sqrtF acc.2.1 * sqrtF acc.2.2
  if denom > 0 then acc.1 / denom else 0

/-- `FaceModel` from types.rs. -/
structure FaceModel where
  id : String
  user : String
  label : String
  embedding : Embedding
  created_at : String
deriving Repr

/-- `MatchResult` from types.rs. -/
structure MatchResult where
  matched : Bool
  similarity : F
  model_id : Option String
  model_label : Option String
deriving Repr

/-- The gallery loop of `CosineMatcher::compare`.  The running state is
`none` for the initial `(best_sim = NEG_INFINITY, best_idx = None)` pair
(every finite similarity beats `NEG_INFINITY`, and the two variables are
always updated together), and `some (best_sim, best_idx)` afterwards.
`i` is the index of the first list element within the full gallery. -/
def compareFold (sqrtF : F → F) (probe : Embedding) :
    List FaceModel → Nat → Option (F × Nat) → Option (F × Nat)
  | [], _, best => best
  | m :: rest, i, best =>
    let sim := Embedding.similarity sqrtF probe m.embedding
    let best' :=
      match best with
      | none => some (sim, i)
      | some (bs, bi) => if bs < sim then some (sim, i) else some (bs, bi)
    compareFold sqrtF probe rest (i + 1) best'

/-- `CosineMatcher::compare` from types.rs: visit every gallery entry,
track the strictly-best similarity and its index, then report a match
exactly when the best similarity reaches the threshold.  The empty
gallery (state still `none`, i.e. `best_sim == NEG_INFINITY`) yields
`matched = false, similarity = 0`. -/
def CosineMatcher.compare (sqrtF : F → F) (probe : Embedding)
    (gallery : List FaceModel) (threshold : F) : MatchResult :=
  match compareFold sqrtF probe gallery 0 none with
  | some (bs, bi) =>
    if bs ≥ threshold then
      { matched := true
        similarity := bs
        model_id := (gallery.get? bi).map (fun m => m.id)
        model_label := (gallery.get? bi).map (fun m => m.label) }
    else
      { matched := false, similarity := bs, model_id := none, model_label := none }
  | none =>
    { matched := false, similarity := 0, model_id := none, model_label := none }

/-- Instrumented variant of the `compare` gallery loop: identical control
flow, plus a counter incremented once per `similarity` evaluation. -/
def compareFoldCount (sqrtF : F → F) (probe : Embedding) :
    List FaceModel → Nat → Option (F × Nat) × Nat → Option (F × Nat) × Nat
  | [], _, acc => acc
  | m :: rest, i, (best, calls) =>
    let sim := Embedding.similarity sqrtF probe m.embedding
    let best' :=
      match best with
      | none => some (sim, i)
      | some (bs, bi) => if bs < sim then some (sim, i) else some (bs, bi)
    compareFoldCount sqrtF probe rest (i + 1) (best', calls + 1)

/-- Number of inner-product (`similarity`) evaluations performed by one
`CosineMatcher::compare` call, read off the instrumented loop. -/
def compareSimilarityCalls (sqrtF : F → F) (probe : Embedding)
    (gallery : List FaceModel) : Nat :=
  (compareFoldCount sqrtF probe gallery 0 (none, 0)).2

/-! ## visage-core/src/detector.rs — output-tensor discovery -/

/-- `SCRFD_STRIDES` from detector.rs. -/
def SCRFD_STRIDES : List Nat := [8, 16, 32]

/-- The `find` closure of `discover_output_indices`: first position of the
name `pre ++ "_" ++ stride` in the output-name list. -/
def findOutput (names : List String) (pre : String) (stride : Nat) : Option Nat :=
  names.findIdx? (fun n => n = pre ++ "_" ++ toString stride)

/-- `discover_output_indices` from detector.rs: when every one of the nine
names `score_S`, `bbox_S`, `kps_S` (S ∈ {8,16,32}) is present, map each
stride to the positions of its three tensors; otherwise fall back to the
positional layout `[(0,3,6),(1,4,7),(2,5,8)]`. -/
def discover_output_indices (names : List String) : List (Nat × Nat × Nat) :=
  let named := SCRFD_STRIDES.all (fun stride =>
    (findOutput names "score" stride).isSome
      && (findOutput names "bbox" stride).isSome
      && (findOutput names "kps" stride).isSome)
  if named then
    SCRFD_STRIDES.map (fun stride =>
      ((findOutput names "score" stride).getD 0,
       (findOutput names "bbox" stride).getD 0,
       (findOutput names "kps" stride).getD 0))
  else
    [(0, 3, 6), (1, 4, 7), (2, 5, 8)]

/-! ## visage-core/src/alignment.rs -/

/-- `REFERENCE_LANDMARKS_112` from alignment.rs: the canonical five-point
ArcFace template anchored to a 112×112 output. -/
def REFERENCE_LANDMARKS_112 : List (F × F) :=
  [(382946/10000, 516963/10000),
   (735318/10000, 515014/10000),
   (560252/10000, 717366/10000),
   (415493/10000, 923655/10000),
   (707299/10000, 922041/10000)]

/-- `ALIGNED_SIZE` from alignment.rs. -/
def ALIGNED_SIZE : Nat := 112

/-- One iteration of the accumulation loop in
`estimate_similarity_transform`: add the two normal-equation rows
`r1 = [sx, -sy, 1, 0]` and `r2 = [sy, sx, 0, 1]` of a single landmark
pair into `(ata, atb)` (`ata` row-major 4×4, `atb` length 4). -/
def accumNormal (acc : List F × List F) (sd : (F × F) × (F × F)) :
    List F × List F :=
  let sx := sd.1.1
  let sy := sd.1.2
  let dx := sd.2.1
  let dy := sd.2.2
  let r1 : List F := [sx, -sy, 1, 0]
  let r2 : List F := [sy, sx, 0, 1]
  let ata := (List.range 16).map (fun idx =>
    let j := idx / 4
    let k := idx % 4
    acc.1.getD idx 0 + r1.getD j 0 * r1.getD k 0 + r2.getD j 0 * r2.getD k 0)
  let atb := (List.range 4).map (fun j =>
    acc.2.getD j 0 + r1.getD j 0 * dx + r2.getD j 0 * dy)
  (ata, atb)

/-- Build the augmented 4×5 matrix `[A | b]` of `solve_4x4`. -/
def augment (ata atb : List F) : List (List F) :=
  (List.range 4).map (fun i =>
    (List.range 5).map (fun j =>
      if j < 4 then ata.getD (i * 4 + j) 0 else atb.getD i 0))

/-- Partial pivoting in `solve_4x4`: index (≥ `col`) of the row whose
`col`-entry has the largest absolute value.  The source loop updates only
on a strict increase, so the earliest row attaining the maximum wins. -/
def pivotRowIdx (m : List (List F)) (col : Nat) : Nat :=
  (List.range' (col + 1) (3 - col)).foldl
    (fun best r =>
      if |(m.getD best []).getD col 0| < |(m.getD r []).getD col 0| then r else best)
    col

/-- `m.swap(i, j)` on the list-of-rows representation. -/
def swapRows (m : List (List F)) (i j : Nat) : List (List F) :=
  let ri := m.getD i []
  let rj := m.getD j []
  m.mapIdx (fun k row => if k = i then rj else if k = j then ri else row)

/-- Forward elimination of `solve_4x4` over the given column list;
`none` models the early `return [1.0, 0.0, 0.0, 0.0]` taken when the
pivot magnitude is below `1e-12`. -/
def forwardElimCols : List Nat → List (List F) → Option (List (List F))
  | [], m => some m
  | col :: rest, m =>
    let m1 := swapRows m col (pivotRowIdx m col)
    let pivot := (m1.getD col []).getD col 0
    if |pivot| < 1/1000000000000 then none
    else
      let m2 := m1.mapIdx (fun row rowv =>
        if col < row then
          let factor := rowv.getD col 0 / pivot
          rowv.mapIdx (fun j v =>
            if col ≤ j then v - factor * (m1.getD col []).getD j 0 else v)
        else rowv)
      forwardElimCols rest m2

/-- Back substitution of `solve_4x4`, unrolled for the fixed 4×4 size
(`x[i] = (m[i][4] - Σ_{j>i} m[i][j]·x[j]) / m[i][i]`). -/
def backSub (m : List (List F)) : List F :=
  let row := fun i => m.getD i []
  let x3 := (row 3).getD 4 0 / (row 3).getD 3 0
  let x2 := ((row 2).getD 4 0 - (row 2).getD 3 0 * x3) / (row 2).getD 2 0
  let x1 := ((row 1).getD 4 0 - (row 1).getD 2 0 * x2 - (row 1).getD 3 0 * x3) /
    (row 1).getD 1 0
  let x0 := ((row 0).getD 4 0 - (row 0).getD 1 0 * x1 - (row 0).getD 2 0 * x2 -
    (row 0).getD 3 0 * x3) / (row 0).getD 0 0
  [x0, x1, x2, x3]

/-- `solve_4x4` from alignment.rs: Gaussian elimination with partial
pivoting on the 4×4 normal equations, falling back to `[1, 0, 0, 0]` on a
(near-)singular system. -/
def solve_4x4 (ata atb : List F) : List F :=
  match forwardElimCols [0, 1, 2, 3] (augment ata atb) with
  | none => [1, 0, 0, 0]
  | some m => backSub m

/-- `estimate_similarity_transform` from alignment.rs: least-squares
similarity transform `[a, -b, tx, b, a, ty]` from `src` to `dst`. -/
def estimate_similarity_transform (src dst : List (F × F)) : List F :=
  let acc := (src.zip dst).foldl accumNormal (List.replicate 16 0, List.replicate 4 0)
  let x := solve_4x4 acc.1 acc.2
  let a := x.getD 0 0
  let b := x.getD 1 0
  let tx := x.getD 2 0
  let ty := x.getD 3 0
  [a, -b, tx, b, a, ty]

/-- Rust `f32::round`: round half away from zero, as an integer. -/
def rustRound (q : F) : Int :=
  if q ≥ 0 then ⌊q + 1/2⌋ else -⌊-q + 1/2⌋

/-- `val.round().clamp(0.0, 255.0) as u8` from warp_affine / clahe. -/
def roundClampU8 (v : F) : Nat :=
  (max 0 (min (rustRound v) 255)).toNat

/-- The `sample` closure of `warp_affine`: read the source pixel at an
integer coordinate, or 0 when the coordinate is out of bounds. -/
def samplePixel (frame : List Nat) (src_width src_height : Nat) (x y : Int) : F :=
  if 0 ≤ x ∧ x < (src_width : Int) ∧ 0 ≤ y ∧ y < (src_height : Int) then
    ((frame.getD (y.toNat * src_width + x.toNat) 0 : Nat) : F)
  else 0

/-- The inverse mapping of `warp_affine`: source coordinate
`(sx, sy) = M⁻¹ · (dst − t)` of one output pixel. -/
def invMap (ia ib tx ty : F) (ox oy : Nat) : F × F :=
  let dx := (ox : F) - tx
  let dy := (oy : F) - ty
  (ia * dx + ib * dy, -ib * dx + ia * dy)

/-- Per-pixel body of the `warp_affine` output loop: bilinear sampling of
the inverse-mapped source coordinate, rounded and clamped to a byte. -/
def warpPixel (frame : List Nat) (src_width src_height : Nat)
    (ia ib tx ty : F) (ox oy : Nat) : Nat :=
  let s := invMap ia ib tx ty ox oy
  let sx := s.1
  let sy := s.2
  let x0 : Int := ⌊sx⌋
  let y0 : Int := ⌊sy⌋
  let x1 := x0 + 1
  let y1 := y0 + 1
  let fx := sx - (x0 : F)
  let fy := sy - (y0 : F)
  let sample := samplePixel frame src_width src_height
  let val := sample x0 y0 * (1 - fx) * (1 - fy) + sample x1 y0 * fx * (1 - fy) +
    sample x0 y1 * (1 - fx) * fy + sample x1 y1 * fx * fy
  roundClampU8 val

/-- `warp_affine` from alignment.rs: invert the 2×2 similarity part
(`det = a² + b²`; a near-zero determinant yields the all-zero output) and
fill every output pixel by bilinear sampling. -/
def warp_affine (frame : List Nat) (src_width src_height : Nat)
    (matrix : List F) (out_size : Nat) : List Nat :=
  let a := matrix.getD 0 0
  let tx := matrix.getD 2 0
  let b := matrix.getD 3 0
  let ty := matrix.getD 5 0
  let det := a * a + b * b
  if |det| < 1/1000000000000 then
    List.replicate (out_size * out_size) 0
  else
    let inv_det := 1 / det
    let ia := a * inv_det
    let ib := b * inv_det
    (List.range (out_size * out_size)).map (fun idx =>
      warpPixel frame src_width src_height ia ib tx ty (idx % out_size) (idx / out_size))

/-- `align_face` from alignment.rs: estimate the landmark transform and
warp the frame into the canonical 112×112 crop. -/
def align_face (frame : List Nat) (width height : Nat)
    (landmarks : List (F × F)) : List Nat :=
  let matrix := estimate_similarity_transform landmarks REFERENCE_LANDMARKS_112
  warp_affine frame width height matrix ALIGNED_SIZE

/-! ## visage-hw/src/frame.rs — CLAHE, and visage-hw/src/camera.rs -/

/-- Histogram of one CLAHE tile: `hist[v]` is the number of tile pixels
whose gray value equals `v` (tile origin `(x0, y0)`, row stride `w`). -/
def tileHist (gray : List Nat) (w tile_w tile_h x0 y0 : Nat) : List Nat :=
  (List.range 256).map (fun v =>
    ((List.range tile_h).map (fun dy =>
      ((List.range tile_w).filter (fun dx =>
        gray.getD ((y0 + dy) * w + (x0 + dx)) 0 == v)).length)).sum)

/-- The per-tile histogram post-processing of `clahe_enhance`: clip each
bin at `(clip_limit · tile_pixels) as u32`, redistribute the clipped
excess (integer share to every bin, one extra to the lowest
`excess % 256` bins), build the running-sum CDF, and normalize it to
`[0, 255]` anchored at the minimum nonzero CDF value. -/
def tileCdf (hist : List Nat) (tile_pixels : Nat) (clip_limit : F) : List F :=
  let clip : Nat := (⌊clip_limit * (tile_pixels : F)⌋).toNat
  let excess : Nat := (hist.map (fun b => b - clip)).sum
  let redist := excess / 256
  let leftover := excess % 256
  let hist2 := (hist.map (fun b => min b clip)).mapIdx
    (fun i b => b + redist + if i < leftover then 1 else 0)
  let cdf : List F := (List.range 256).map (fun i => (((hist2.take (i + 1)).sum : Nat) : F))
  let cdf_min := (cdf.find? (fun v => decide (v > 0))).getD 0
  let denom := (tile_pixels : F) - cdf_min
  if denom > 0 then
    cdf.map (fun v => max 0 (min ((v - cdf_min) / denom * 255) 255))
  else cdf

/-- `clahe_enhance` from frame.rs: per-tile clipped histogram CDFs on a
`tiles_x × tiles_x` grid, then per-pixel bilinear interpolation between
the four surrounding tile CDFs (tile-center coordinates, clamped).
Degenerate geometry (zero dimension, short buffer, or zero tile size)
leaves the buffer unchanged, and bytes beyond `w·h` are never touched. -/
def clahe_enhance (gray : List Nat) (width height tiles_x : Nat)
    (clip_limit : F) : List Nat :=
  let w := width
  let h := height
  if w = 0 ∨ h = 0 ∨ gray.length < w * h then gray
  else
    let tx := tiles_x
    let ty := tiles_x
    let tile_w := w / tx
    let tile_h := h / ty
    if tile_w = 0 ∨ tile_h = 0 then gray
    else
      let tile_pixels := tile_w * tile_h
      let cdfs : List (List F) := (List.range (ty * tx)).map (fun t =>
        tileCdf (tileHist gray w tile_w tile_h ((t % tx) * tile_w) ((t / tx) * tile_h))
          tile_pixels clip_limit)
      let mapped := (List.range (w * h)).map (fun idx =>
        let y := idx / w
        let x := idx % w
        let pixel := gray.getD idx 0
        let fy : F := max 0 (min ((y : F) / (tile_h : F) - 1/2) (((ty - 1 : Nat) : F)))
        let fx : F := max 0 (min ((x : F) / (tile_w : F) - 1/2) (((tx - 1 : Nat) : F)))
        let r0 := (⌊fy⌋).toNat
        let c0 := (⌊fx⌋).toNat
        let r1 := min (r0 + 1) (ty - 1)
        let c1 := min (c0 + 1) (tx - 1)
        let dy := fy - (r0 : F)
        let dx := fx - (c0 : F)
        let tl := (cdfs.getD (r0 * tx + c0) []).getD pixel 0
        let tr := (cdfs.getD (r0 * tx + c1) []).getD pixel 0
        let bl := (cdfs.getD (r1 * tx + c0) []).getD pixel 0
        let br := (cdfs.getD (r1 * tx + c1) []).getD pixel 0
        let top := tl * (1 - dx) + tr * dx
        let bot := bl * (1 - dx) + br * dx
        roundClampU8 (top * (1 - dy) + bot * dy))
      mapped ++ gray.drop (w * h)

/-- `CameraError` from camera.rs. -/
inductive CameraError where
  | DeviceNotFound (msg : String)
  | CaptureFailed (msg : String)
  | DeviceBusy
  | FormatNegotiationFailed (msg : String)
  | StreamingNotSupported
deriving DecidableEq, Repr

/-- `Frame` from frame.rs (the wall-clock `timestamp` field carries no
program-visible information and is omitted). -/
structure Frame where
  data : List Nat
  width : Nat
  height : Nat
  sequence : Nat
  is_dark : Bool
deriving Repr

/-- One dequeued-and-converted grayscale camera buffer, with the driver
sequence number.  The V4L2 stream is modelled as a function from attempt
number to `Option RawBuf`; `none` models a failed dequeue (or failed
pixel-format conversion), which `capture_frames` maps to
`CameraError::CaptureFailed`. -/
structure RawBuf where
  data : List Nat
  sequence : Nat
deriving Repr

/-- The attempt loop of `Camera::capture_frames`: `fuel` counts the
remaining attempts (starting at `count * 3`), `i` is the next dequeue
index, `good` and `dark` are the accumulators.  A dark frame (threshold
0.95) is skipped and counted; a non-dark frame gets CLAHE (8×8 tiles,
clip limit 0.02) and is kept; the loop stops once `count` frames are
kept or the attempts are exhausted. -/
def captureLoop (acquire : Nat → Option RawBuf) (width height count : Nat) :
    Nat → Nat → List Frame → Nat → Except CameraError (List Frame × Nat)
  | 0, _, good, dark => .ok (good, dark)
  | fuel + 1, i, good, dark =>
    if count ≤ good.length then .ok (good, dark)
    else
      match acquire i with
      | none => .error (.CaptureFailed "failed to dequeue buffer")
      | some buf =>
        if is_dark_frame buf.data (95/100) then
          captureLoop acquire width height count fuel (i + 1) good (dark + 1)
        else
          let enhanced := clahe_enhance buf.data width height 8 (2/100)
          captureLoop acquire width height count fuel (i + 1)
            (good ++ [{ data := enhanced, width := width, height := height,
                        sequence := buf.sequence, is_dark := false }]) dark

/-- `Camera::capture_frames` from camera.rs: up to `count * 3` dequeues
looking for `count` non-dark frames. -/
def capture_frames (acquire : Nat → Option RawBuf) (width height count : Nat) :
    Except CameraError (List Frame × Nat) :=
  captureLoop acquire width height count (count * 3) 0 [] 0

/-- Instrumented attempt loop: identical control flow to `captureLoop`,
plus a counter incremented once per dequeue (`stream.next()` call). -/
def captureLoopInstr (acquire : Nat → Option RawBuf) (width height count : Nat) :
    Nat → Nat → List Frame → Nat → Nat →
    Except CameraError (List Frame × Nat) × Nat
  | 0, _, good, dark, deqs => (.ok (good, dark), deqs)
  | fuel + 1, i, good, dark, deqs =>
    if count ≤ good.length then (.ok (good, dark), deqs)
    else
      match acquire i with
      | none => (.error (.CaptureFailed "failed to dequeue buffer"), deqs + 1)
      | some buf =>
        if is_dark_frame buf.data (95/100) then
          captureLoopInstr acquire width height count fuel (i + 1) good (dark + 1) (deqs + 1)
        else
          let enhanced := clahe_enhance buf.data width height 8 (2/100)
          captureLoopInstr acquire width height count fuel (i + 1)
            (good ++ [{ data := enhanced, width := width, height := height,
                        sequence := buf.sequence, is_dark := false }]) dark (deqs + 1)

/-- Number of dequeues one `capture_frames` call performs, read off the
instrumented loop. -/
def captureDequeues (acquire : Nat → Option RawBuf) (width height count : Nat) : Nat :=
  (captureLoopInstr acquire width height count (count * 3) 0 [] 0 0).2

/-- Declarative scan prefix: the buffers `capture_frames` examines, i.e.
the shortest prefix of the dequeued stream containing `k` non-dark
buffers (the whole list when it holds fewer). -/
def takeUntilGood : List RawBuf → Nat → List RawBuf
  | [], _ => []
  | b :: rest, k =>
    if k = 0 then []
    else if is_dark_frame b.data (95/100) then b :: takeUntilGood rest k
    else b :: takeUntilGood rest (k - 1)

/-- The `Frame` built from one kept buffer in `capture_frames`. -/
def keptFrame (width height : Nat) (b : RawBuf) : Frame :=
  { data := clahe_enhance b.data width height 8 (2/100)
    width := width, height := height, sequence := b.sequence, is_dark := false }

/-! ## visaged/src/engine.rs -/

/-- `EngineError` from engine.rs. -/
inductive EngineError where
  | Camera (e : CameraError)
  | Detector (msg : String)
  | Recognizer (msg : String)
  | NoFaceDetected
  | ChannelClosed
deriving DecidableEq, Repr

/-- `BoundingBox` from types.rs: detected face with confidence and
optional five-point landmarks. -/
structure BoundingBox where
  x : F
  y : F
  width : F
  height : F
  confidence : F
  landmarks : Option (List (F × F))
deriving Repr

/-- `VerifyResult` from engine.rs. -/
structure VerifyResult where
  result : MatchResult
  best_quality : F
deriving Repr

/-- The per-frame loop of `run_verify`: `detect` and `extract` model the
SCRFD and ArcFace inference calls (fallible, as in the source); a frame
with no detection is skipped; otherwise the top detection is embedded
and compared, and the running best is replaced exactly when the new
similarity is strictly greater. -/
def verifyLoop (detect : Frame → Except EngineError (List BoundingBox))
    (extract : Frame → BoundingBox → Except EngineError Embedding)
    (sqrtF : F → F) (gallery : List FaceModel) (threshold : F) :
    List Frame → Option MatchResult → F → Bool →
    Except EngineError (Option MatchResult × F × Bool)
  | [], best, bq, anyFace => .ok (best, bq, anyFace)
  | f :: rest, best, bq, anyFace =>
    match detect f with
    | .error e => .error e
    | .ok faces =>
      match faces.head? with
      | none => verifyLoop detect extract sqrtF gallery threshold rest best bq anyFace
      | some face =>
        match extract f face with
        | .error e => .error e
        | .ok emb =>
          let result := CosineMatcher.compare sqrtF emb gallery threshold
          let isBetter :=
            match best with
            | none => true
            | some prev => decide (prev.similarity < result.similarity)
          if isBetter then
            verifyLoop detect extract sqrtF gallery threshold rest
              (some result) face.confidence true
          else
            verifyLoop detect extract sqrtF gallery threshold rest best bq true

/-- `run_verify` from engine.rs, from the point where the capture result
is available (IR-emitter activation and deactivation are logging-only
side effects):  propagate capture failure, fail `NoFaceDetected` when no
frame was captured or no captured frame had a detection, and otherwise
return the best (strictly highest similarity, earliest frame on ties)
match result. -/
def run_verify (detect : Frame → Except EngineError (List BoundingBox))
    (extract : Frame → BoundingBox → Except EngineError Embedding)
    (sqrtF : F → F) (gallery : List FaceModel) (threshold : F)
    (capture_result : Except CameraError (List Frame × Nat)) :
    Except EngineError VerifyResult :=
  match capture_result with
  | .error e => .error (.Camera e)
  | .ok (frames, _dark_skipped) =>
    if frames.isEmpty then .error .NoFaceDetected
    else
      match verifyLoop detect extract sqrtF gallery threshold frames none 0 false with
      | .error e => .error e
      | .ok (best, bq, anyFace) =>
        if !anyFace then .error .NoFaceDetected
        else
          .ok { result := best.getD
                  { matched := false, similarity := 0, model_id := none, model_label := none }
                best_quality := bq }

/-- Specification helper for `run_verify` with pure (never-failing)
inference: the compare results of exactly the captured frames that have
at least one detection — top detection embedded and compared. -/
def frameResults (d : Frame → List BoundingBox) (e : Frame → BoundingBox → Embedding)
    (sqrtF : F → F) (gallery : List FaceModel) (threshold : F)
    (frames : List Frame) : List MatchResult :=
  frames.filterMap (fun f => (d f).head?.map
    (fun face => CosineMatcher.compare sqrtF (e f face) gallery threshold))

/-- Specification helper: the strictly-better selection fold
(`result.similarity > prev.similarity`) over a list of match results. -/
def foldBest (best : Option MatchResult) (rs : List MatchResult) : Option MatchResult :=
  rs.foldl (fun b r =>
    match b with
    | none => some r
    | some p => if p.similarity < r.similarity then some r else some p) best

/-! ## pam-visage/src/lib.rs -/

/-- `PAM_SUCCESS` (0). -/
def PAM_SUCCESS : Int := 0

/-- `PAM_IGNORE` (25). -/
def PAM_IGNORE : Int := 25

/-- `PAM_AUTH_ERR` from the PAM code space (7) — the forbidden
auth-denied return value; never used by the module. -/
def PAM_AUTH_ERR : Int := 7

/-- The C string `pam_get_user` yields: either invalid UTF-8 or a Rust
string. -/
inductive CUser where
  | nonUtf8
  | utf8 (s : String)
deriving Repr

/-- The external world as `pam_sm_authenticate` observes it:
the `pam_get_user` return code and pointer, the outcome of the D-Bus
`Verify` call (`none` models every error: daemon absent, D-Bus failure,
3-second timeout), and whether the guarded closure panics. -/
structure PamWorld where
  getUserRet : Int
  userPtr : Option CUser
  verifyFace : String → Option Bool
  panics : Bool

/-- `pam_sm_authenticate` from pam-visage/lib.rs: a panic is caught and
converted by `result.unwrap_or(PAM_IGNORE)`; a failed `pam_get_user`, a
null pointer, a non-UTF-8 username, a D-Bus error, and a `false` verify
all return `PAM_IGNORE`; only a `true` verify returns `PAM_SUCCESS`
(syslog and the TEXT_INFO conversation message are side effects with no
influence on the return value). -/
def pam_sm_authenticate (w : PamWorld) : Int :=
  if w.panics then PAM_IGNORE
  else if w.getUserRet ≠ PAM_SUCCESS then PAM_IGNORE
  else
    match w.userPtr with
    | none => PAM_IGNORE
    | some .nonUtf8 => PAM_IGNORE
    | some (.utf8 username) =>
      match w.verifyFace username with
      | some true => PAM_SUCCESS
      | some false => PAM_IGNORE
      | none => PAM_IGNORE

/-- `pam_sm_setcred` from pam-visage/lib.rs: unconditionally
`PAM_IGNORE`. -/
def pam_sm_setcred (_w : PamWorld) : Int :=
  PAM_IGNORE

/-! ## visaged/src/config.rs -/

/-- `Config` from config.rs (paths modelled as strings). -/
structure Config where
  camera_device : String
  model_dir : String
  db_path : String
  similarity_threshold : F
  verify_timeout_secs : Nat
  warmup_frames : Nat
  frames_per_verify : Nat
  frames_per_enroll : Nat
  emitter_enabled : Bool
deriving Repr

/-- `env_f32` from config.rs: read the variable, parse it as `f32`
(`parseF` models `str::parse::<f32>`), and fall back to the default when
the variable is unset or unparseable. -/
def env_f32 (env : String → Option String) (parseF : String → Option F)
    (key : String) (dflt : F) : F :=
  ((env key).bind parseF).getD dflt

/-- `env_u64` from config.rs. -/
def env_u64 (env : String → Option String) (parseNat : String → Option Nat)
    (key : String) (dflt : Nat) : Nat :=
  ((env key).bind parseNat).getD dflt

/-- `env_usize` from config.rs. -/
def env_usize (env : String → Option String) (parseNat : String → Option Nat)
    (key : String) (dflt : Nat) : Nat :=
  ((env key).bind parseNat).getD dflt

/-- `default_model_dir` from visage-core/lib.rs: XDG data home (or
`$HOME/.local/share`, or `/tmp`) plus `visage/models`. -/
def default_model_dir (env : String → Option String) : String :=
  let base := (env "XDG_DATA_HOME").getD (((env "HOME").getD "/tmp") ++ "/.local/share")
  base ++ "/visage/models"

/-- `Config::from_env` from config.rs, over an explicit environment
(`env`) and the two Rust numeric parsers (`parseF` for `f32`, `parseNat`
for `u64`/`usize`).  `VISAGE_EMITTER_ENABLED` disables the emitter
exactly when its value is the string `"0"`. -/
def Config.from_env (env : String → Option String) (parseF : String → Option F)
    (parseNat : String → Option Nat) : Config :=
  let model_dir := (env "VISAGE_MODEL_DIR").getD (default_model_dir env)
  let data_dir :=
    ((env "XDG_DATA_HOME").getD (((env "HOME").getD "/tmp") ++ "/.local/share")) ++ "/visage"
  let db_path := (env "VISAGE_DB_PATH").getD (data_dir ++ "/faces.db")
  { camera_device := (env "VISAGE_CAMERA_DEVICE").getD "/dev/video2"
    model_dir := model_dir
    db_path := db_path
    similarity_threshold := env_f32 env parseF "VISAGE_SIMILARITY_THRESHOLD" (40/100)
    verify_timeout_secs := env_u64 env parseNat "VISAGE_VERIFY_TIMEOUT_SECS" 10
    warmup_frames := env_usize env parseNat "VISAGE_WARMUP_FRAMES" 4
    frames_per_verify := env_usize env parseNat "VISAGE_FRAMES_PER_VERIFY" 3
    frames_per_enroll := env_usize env parseNat "VISAGE_FRAMES_PER_ENROLL" 5
    emitter_enabled := ((env "VISAGE_EMITTER_ENABLED").map (fun v => v != "0")).getD true }

/-! ## Theorems -/

/-- Claim C1: `pam_sm_authenticate` returns only values in {0, 25} — 0
(`PAM_SUCCESS`) exactly when the daemon's Verify call returned true, 25
(`PAM_IGNORE`) on every other path (verify false, D-Bus error/timeout/
daemon absence, `pam_get_user` failure, non-UTF-8 username, caught
panic); `pam_sm_setcred` always returns 25; no auth-denied code is ever
returned. -/
theorem C1_pam_fail_safe_return_codes (w : PamWorld) :
    (pam_sm_authenticate w = PAM_SUCCESS ∨ pam_sm_authenticate w = PAM_IGNORE)
    ∧ (pam_sm_authenticate w = PAM_SUCCESS ↔
        (w.panics = false ∧ w.getUserRet = PAM_SUCCESS ∧
          ∃ u, w.userPtr = some (.utf8 u) ∧ w.verifyFace u = some true))
    ∧ pam_sm_setcred w = PAM_IGNORE
    ∧ pam_sm_authenticate w ≠ PAM_AUTH_ERR := by
  obtain ⟨ret, ptr, vf, p⟩ := w
  rw [pam_sm_authenticate, pam_sm_setcred]
  simp only [PAM_SUCCESS, PAM_IGNORE, PAM_AUTH_ERR]
  cases p with
  | true => simp
  | false =>
    simp only [Bool.false_eq_true, if_false]
    by_cases hret : ret = 0
    · subst hret
      simp only [ne_eq, not_true_eq_false, if_false]
      match ptr with
      | none => simp
      | some .nonUtf8 => simp
      | some (.utf8 u) =>
        match hv : vf u with
        | some true => simp [hv]
        | some false => simp [hv]
        | none => simp [hv]
    · simp [hret]

/-- Claim C10: every numeric `VISAGE_*` variable that is unset or fails
to parse falls back to its default (similarity threshold 0.40, verify
timeout 10, warmup 4, frames-per-verify 3, frames-per-enroll 5), and
`VISAGE_EMITTER_ENABLED` disables the emitter exactly when its value is
the string "0". -/
theorem C10_config_env_fallbacks (env : String → Option String)
    (parseF : String → Option F) (parseNat : String → Option Nat) :
    ((env "VISAGE_SIMILARITY_THRESHOLD" = none ∨
        (∃ v, env "VISAGE_SIMILARITY_THRESHOLD" = some v ∧ parseF v = none)) →
      (Config.from_env env parseF parseNat).similarity_threshold = 40/100)
    ∧ ((env "VISAGE_VERIFY_TIMEOUT_SECS" = none ∨
        (∃ v, env "VISAGE_VERIFY_TIMEOUT_SECS" = some v ∧ parseNat v = none)) →
      (Config.from_env env parseF parseNat).verify_timeout_secs = 10)
    ∧ ((env "VISAGE_WARMUP_FRAMES" = none ∨
        (∃ v, env "VISAGE_WARMUP_FRAMES" = some v ∧ parseNat v = none)) →
      (Config.from_env env parseF parseNat).warmup_frames = 4)
    ∧ ((env "VISAGE_FRAMES_PER_VERIFY" = none ∨
        (∃ v, env "VISAGE_FRAMES_PER_VERIFY" = some v ∧ parseNat v = none)) →
      (Config.from_env env parseF parseNat).frames_per_verify = 3)
    ∧ ((env "VISAGE_FRAMES_PER_ENROLL" = none ∨
        (∃ v, env "VISAGE_FRAMES_PER_ENROLL" = some v ∧ parseNat v = none)) →
      (Config.from_env env parseF parseNat).frames_per_enroll = 5)
    ∧ ((Config.from_env env parseF parseNat).emitter_enabled = false ↔
        env "VISAGE_EMITTER_ENABLED" = some "0") := by
  refine ⟨?_, ?_, ?_, ?_, ?_, ?_⟩
  · rintro (h | ⟨v, hv, hp⟩)
    · simp [Config.from_env, env_f32, h]
    · simp [Config.from_env, env_f32, hv, hp]
  · rintro (h | ⟨v, hv, hp⟩)
    · simp [Config.from_env, env_u64, h]
    · simp [Config.from_env, env_u64, hv, hp]
  · rintro (h | ⟨v, hv, hp⟩)
    · simp [Config.from_env, env_usize, h]
    · simp [Config.from_env, env_usize, hv, hp]
  · rintro (h | ⟨v, hv, hp⟩)
    · simp [Config.from_env, env_usize, h]
    · simp [Config.from_env, env_usize, hv, hp]
  · rintro (h | ⟨v, hv, hp⟩)
    · simp [Config.from_env, env_usize, h]
    · simp [Config.from_env, env_usize, hv, hp]
  · match hv : env "VISAGE_EMITTER_ENABLED" with
    | none => simp [Config.from_env, hv]
    | some v =>
      simp [Config.from_env, hv, bne_eq_false_iff_eq]

/-- Claim C10 witness: with an empty environment every numeric field is
its default, and the emitter stays enabled. -/
theorem C10_config_env_fallbacks_witness :
    (Config.from_env (fun _ => none) (fun _ => none) (fun _ => none)).similarity_threshold
        = 40/100
    ∧ (Config.from_env (fun _ => none) (fun _ => none) (fun _ => none)).frames_per_verify = 3
    ∧ (Config.from_env (fun _ => none) (fun _ => none) (fun _ => none)).emitter_enabled = true := by
  have h := C10_config_env_fallbacks (fun _ => none) (fun _ => none) (fun _ => none)
  refine ⟨h.1 (Or.inl rfl), h.2.2.2.1 (Or.inl rfl), ?_⟩
  have := h.2.2.2.2.2
  simp at this
  simp [this]

/-- Claim C7: `is_dark_frame` is true exactly when the buffer is empty
or the fraction of bytes strictly below 32 strictly exceeds the
threshold; with threshold 0.95, 1000 zero bytes are dark, 1000 bytes of
128 are not, 960×10 ++ 40×128 is dark, 940×10 ++ 60×128 is not. -/
theorem C7_is_dark_frame_spec (gray : List Nat) (t : F) :
    (is_dark_frame gray t = true ↔
      (gray = [] ∨
        (((gray.filter (fun p => decide (p < 32))).length : F) / (gray.length : F) > t)))
    ∧ is_dark_frame (List.replicate 1000 0) (95/100) = true
    ∧ is_dark_frame (List.replicate 1000 128) (95/100) = false
    ∧ is_dark_frame (List.replicate 960 10 ++ List.replicate 40 128) (95/100) = true
    ∧ is_dark_frame (List.replicate 940 10 ++ List.replicate 60 128) (95/100) = false := by
  refine ⟨?_, ?_, ?_, ?_, ?_⟩
  · rw [is_dark_frame]
    rcases gray with _ | ⟨a, rest⟩
    · simp
    · simp only [List.isEmpty_cons, Bool.false_eq_true, if_false, decide_eq_true_eq,
        List.countP_eq_length_filter]
      exact (or_iff_right (List.cons_ne_nil a rest)).symm
  · rw [is_dark_frame]; norm_num [List.countP_replicate]
  · rw [is_dark_frame]; norm_num [List.countP_replicate]
  · rw [is_dark_frame]; norm_num [List.countP_append, List.countP_replicate]
  · rw [is_dark_frame]; norm_num [List.countP_append, List.countP_replicate]

theorem everyEven_length (l : List Nat) : (everyEven l).length = (l.length + 1) / 2 := by
  induction l using everyEven.induct with
  | case1 => simp [everyEven]
  | case2 a => simp [everyEven]
  | case3 a b rest ih => simp only [everyEven, List.length_cons, ih]; omega

theorem everyEven_getD (l : List Nat) (i : Nat) :
    (everyEven l).getD i 0 = l.getD (2 * i) 0 := by
  induction l using everyEven.induct generalizing i with
  | case1 => simp [everyEven]
  | case2 a =>
    match i with
    | 0 => rfl
    | i + 1 =>
      have h2 : 2 * (i + 1) = 2 * i + 1 + 1 := by ring
      simp [everyEven, h2]
  | case3 a b rest ih =>
    match i with
    | 0 => rfl
    | i + 1 =>
      have h2 : 2 * (i + 1) = 2 * i + 1 + 1 := by ring
      simp only [everyEven, h2, List.getD_cons_succ]
      exact ih i

theorem getD_take_of_lt (l : List Nat) (n i : Nat) (h : i < n) :
    (l.take n).getD i 0 = l.getD i 0 := by
  induction l generalizing n i with
  | nil => simp
  | cons a t ih =>
    match n, h with
    | n + 1, _ =>
      match i with
      | 0 => rfl
      | i + 1 =>
        simp only [List.take_succ_cons, List.getD_cons_succ]
        exact ih n i (by omega)

/-- Claim C6: with at least `2·w·h` input bytes, `yuyv_to_grayscale`
returns exactly `w·h` bytes — the even-indexed bytes of the first
`2·w·h` input bytes; with fewer, it fails with
`InvalidLength{expected = 2·w·h, actual = input length}`. -/
theorem C6_yuyv_to_grayscale_spec (yuyv : List Nat) (width height : Nat) :
    (2 * (width * height) ≤ yuyv.length →
      ∃ g, yuyv_to_grayscale yuyv width height = .ok g ∧
        g.length = width * height ∧
        ∀ i, i < width * height → g.getD i 0 = yuyv.getD (2 * i) 0)
    ∧ (yuyv.length < 2 * (width * height) →
      yuyv_to_grayscale yuyv width height =
        .error (.InvalidLength (2 * (width * height)) yuyv.length))
    ∧ yuyv_to_grayscale [0, 1, 2, 3, 4, 5, 6, 7, 8, 9, 10, 11, 12, 13, 14, 15] 4 2 =
        .ok [0, 2, 4, 6, 8, 10, 12, 14] := by
  have hexp : width * height * 2 = 2 * (width * height) := by ring
  refine ⟨?_, ?_, ?_⟩
  · intro h
    rw [yuyv_to_grayscale]
    simp only [hexp, if_neg (by omega : ¬yuyv.length < 2 * (width * height))]
    refine ⟨_, rfl, ?_, ?_⟩
    · rw [everyEven_length, List.length_take]
      omega
    · intro i hi
      rw [everyEven_getD, getD_take_of_lt _ _ _ (by omega)]
  · intro h
    rw [yuyv_to_grayscale]
    simp only [hexp, if_pos (by omega : yuyv.length < 2 * (width * height))]
  · rfl

theorem findOutput_isSome_iff (names : List String) (pre : String) (s : Nat) :
    (findOutput names pre s).isSome = true ↔ (pre ++ "_" ++ toString s) ∈ names := by
  rw [findOutput, List.findIdx?_isSome, List.any_eq_true]
  constructor
  · rintro ⟨x, hx, hp⟩
    simp only [decide_eq_true_eq] at hp
    exact hp ▸ hx
  · intro h
    exact ⟨_, h, by simp⟩

theorem findOutput_first_occurrence (names : List String) (pre : String) (s : Nat)
    (h : (pre ++ "_" ++ toString s) ∈ names) :
    ∃ i, findOutput names pre s = some i ∧ i < names.length ∧
      names.getD i "" = pre ++ "_" ++ toString s ∧
      ∀ j, j < i → names.getD j "" ≠ pre ++ "_" ++ toString s := by
  have hsome : (findOutput names pre s).isSome = true :=
    (findOutput_isSome_iff names pre s).mpr h
  obtain ⟨i, hi⟩ := Option.isSome_iff_exists.mp hsome
  rw [findOutput] at hi
  obtain ⟨hlt, hp, hbefore⟩ := List.findIdx?_eq_some_iff_getElem.mp hi
  simp only [decide_eq_true_eq] at hp
  refine ⟨i, by rw [findOutput]; exact hi, hlt, ?_, ?_⟩
  · rw [List.getD_eq_getElem?_getD, List.getElem?_eq_getElem hlt]
    exact hp
  · intro j hj
    have := hbefore j hj
    simp only [decide_eq_true_eq] at this
    rw [List.getD_eq_getElem?_getD, List.getElem?_eq_getElem (Nat.lt_trans hj hlt)]
    exact this

theorem discover_named_cond_iff (names : List String) :
    (SCRFD_STRIDES.all (fun stride =>
        (findOutput names "score" stride).isSome
          && (findOutput names "bbox" stride).isSome
          && (findOutput names "kps" stride).isSome) = true)
    ↔ (∀ s ∈ SCRFD_STRIDES, ("score_" ++ toString s) ∈ names ∧
        ("bbox_" ++ toString s) ∈ names ∧ ("kps_" ++ toString s) ∈ names) := by
  have e1 : ("score" ++ "_" : String) = "score_" := rfl
  have e2 : ("bbox" ++ "_" : String) = "bbox_" := rfl
  have e3 : ("kps" ++ "_" : String) = "kps_" := rfl
  simp only [List.all_eq_true, Bool.and_eq_true, findOutput_isSome_iff, and_assoc, e1, e2, e3]

/-- Claim C8: output-tensor discovery uses name-based mapping exactly
when all nine names `score_S`, `bbox_S`, `kps_S` (S ∈ {8,16,32}) are
present, mapping each stride to the first positions of its three names;
otherwise it returns the positional layout `[(0,3,6),(1,4,7),(2,5,8)]`.
The shuffled named input yields `[(2,0,1),(5,3,4),(8,6,7)]` and the
numeric names "0".."8" yield the positional layout. -/
theorem C8_discover_output_indices_spec (names : List String) :
    ((∀ s ∈ SCRFD_STRIDES, ("score_" ++ toString s) ∈ names ∧
        ("bbox_" ++ toString s) ∈ names ∧ ("kps_" ++ toString s) ∈ names) →
      (discover_output_indices names).length = 3 ∧
      ∀ k, k < 3 →
        ∀ pos1 pos2 pos3, (discover_output_indices names).getD k (0, 0, 0) = (pos1, pos2, pos3) →
          let stride := SCRFD_STRIDES.getD k 0
          (pos1 < names.length ∧ names.getD pos1 "" = "score_" ++ toString stride ∧
            ∀ j < pos1, names.getD j "" ≠ "score_" ++ toString stride) ∧
          (pos2 < names.length ∧ names.getD pos2 "" = "bbox_" ++ toString stride ∧
            ∀ j < pos2, names.getD j "" ≠ "bbox_" ++ toString stride) ∧
          (pos3 < names.length ∧ names.getD pos3 "" = "kps_" ++ toString stride ∧
            ∀ j < pos3, names.getD j "" ≠ "kps_" ++ toString stride))
    ∧ ((¬∀ s ∈ SCRFD_STRIDES, ("score_" ++ toString s) ∈ names ∧
        ("bbox_" ++ toString s) ∈ names ∧ ("kps_" ++ toString s) ∈ names) →
      discover_output_indices names = [(0, 3, 6), (1, 4, 7), (2, 5, 8)])
    ∧ discover_output_indices
        ["bbox_8", "kps_8", "score_8", "bbox_16", "kps_16", "score_16",
         "bbox_32", "kps_32", "score_32"] = [(2, 0, 1), (5, 3, 4), (8, 6, 7)]
    ∧ discover_output_indices ["0", "1", "2", "3", "4", "5", "6", "7", "8"] =
        [(0, 3, 6), (1, 4, 7), (2, 5, 8)] := by
  refine ⟨?_, ?_, by rfl, by rfl⟩
  · intro H
    have hcond := (discover_named_cond_iff names).mpr H
    rw [discover_output_indices]
    simp only [hcond, if_true]
    have h8 := H 8 (by simp [SCRFD_STRIDES])
    have h16 := H 16 (by simp [SCRFD_STRIDES])
    have h32 := H 32 (by simp [SCRFD_STRIDES])
    refine ⟨by simp [SCRFD_STRIDES], ?_⟩
    intro k hk pos1 pos2 pos3 hpos
    have expand : SCRFD_STRIDES.map (fun stride =>
        ((findOutput names "score" stride).getD 0,
         (findOutput names "bbox" stride).getD 0,
         (findOutput names "kps" stride).getD 0)) =
      [((findOutput names "score" 8).getD 0, (findOutput names "bbox" 8).getD 0,
        (findOutput names "kps" 8).getD 0),
       ((findOutput names "score" 16).getD 0, (findOutput names "bbox" 16).getD 0,
        (findOutput names "kps" 16).getD 0),
       ((findOutput names "score" 32).getD 0, (findOutput names "bbox" 32).getD 0,
        (findOutput names "kps" 32).getD 0)] := by
      simp [SCRFD_STRIDES]
    rw [expand] at hpos
    match k, hk with
    | 0, _ =>
      obtain ⟨i1, hf1, hl1, hg1, hb1⟩ := findOutput_first_occurrence names "score" 8 h8.1
      obtain ⟨i2, hf2, hl2, hg2, hb2⟩ := findOutput_first_occurrence names "bbox" 8 h8.2.1
      obtain ⟨i3, hf3, hl3, hg3, hb3⟩ := findOutput_first_occurrence names "kps" 8 h8.2.2
      simp only [List.getD_cons_zero, hf1, hf2, hf3, Option.getD_some, Prod.mk.injEq] at hpos
      obtain ⟨rfl, rfl, rfl⟩ := hpos
      exact ⟨⟨hl1, hg1, hb1⟩, ⟨hl2, hg2, hb2⟩, ⟨hl3, hg3, hb3⟩⟩
    | 1, _ =>
      obtain ⟨i1, hf1, hl1, hg1, hb1⟩ := findOutput_first_occurrence names "score" 16 h16.1
      obtain ⟨i2, hf2, hl2, hg2, hb2⟩ := findOutput_first_occurrence names "bbox" 16 h16.2.1
      obtain ⟨i3, hf3, hl3, hg3, hb3⟩ := findOutput_first_occurrence names "kps" 16 h16.2.2
      simp only [List.getD_cons_succ, List.getD_cons_zero, hf1, hf2, hf3, Option.getD_some,
        Prod.mk.injEq] at hpos
      obtain ⟨rfl, rfl, rfl⟩ := hpos
      exact ⟨⟨hl1, hg1, hb1⟩, ⟨hl2, hg2, hb2⟩, ⟨hl3, hg3, hb3⟩⟩
    | 2, _ =>
      obtain ⟨i1, hf1, hl1, hg1, hb1⟩ := findOutput_first_occurrence names "score" 32 h32.1
      obtain ⟨i2, hf2, hl2, hg2, hb2⟩ := findOutput_first_occurrence names "bbox" 32 h32.2.1
      obtain ⟨i3, hf3, hl3, hg3, hb3⟩ := findOutput_first_occurrence names "kps" 32 h32.2.2
      simp only [List.getD_cons_succ, List.getD_cons_zero, hf1, hf2, hf3, Option.getD_some,
        Prod.mk.injEq] at hpos
      obtain ⟨rfl, rfl, rfl⟩ := hpos
      exact ⟨⟨hl1, hg1, hb1⟩, ⟨hl2, hg2, hb2⟩, ⟨hl3, hg3, hb3⟩⟩
  · intro H
    have hcond : ¬(SCRFD_STRIDES.all (fun stride =>
        (findOutput names "score" stride).isSome
          && (findOutput names "bbox" stride).isSome
          && (findOutput names "kps" stride).isSome) = true) :=
      fun h => H ((discover_named_cond_iff names).mp h)
    rw [discover_output_indices]
    simp only [Bool.not_eq_true] at hcond
    simp only [hcond, Bool.false_eq_true, if_false]

theorem compareFold_some_spec (sqrtF : F → F) (probe : Embedding) (l : List FaceModel) :
    ∀ (i : Nat) (bs : F) (bi : Nat),
      ∃ bs' bi', compareFold sqrtF probe l i (some (bs, bi)) = some (bs', bi') ∧
        bs ≤ bs' ∧
        (∀ m ∈ l, Embedding.similarity sqrtF probe m.embedding ≤ bs') ∧
        ((bs' = bs ∧ bi' = bi) ∨
          ∃ k m, l.get? k = some m ∧ bi' = i + k ∧
            Embedding.similarity sqrtF probe m.embedding = bs') := by
  induction l with
  | nil =>
    intro i bs bi
    exact ⟨bs, bi, rfl, le_refl _, by simp, Or.inl ⟨rfl, rfl⟩⟩
  | cons m rest ih =>
    intro i bs bi
    by_cases hlt : bs < Embedding.similarity sqrtF probe m.embedding
    · obtain ⟨bs', bi', heq, hle, hall, hattain⟩ :=
        ih (i + 1) (Embedding.similarity sqrtF probe m.embedding) i
      refine ⟨bs', bi', ?_, le_of_lt (lt_of_lt_of_le hlt hle), ?_, ?_⟩
      · rw [compareFold]
        simp only [hlt, if_true]
        exact heq
      · intro m' hm'
        rcases List.mem_cons.mp hm' with h | h
        · exact h ▸ hle
        · exact hall m' h
      · rcases hattain with ⟨hbs, hbi⟩ | ⟨k, m', hget, hbi, hsim⟩
        · exact Or.inr ⟨0, m, rfl, by omega, hbs.symm⟩
        · exact Or.inr ⟨k + 1, m', hget, by omega, hsim⟩
    · obtain ⟨bs', bi', heq, hle, hall, hattain⟩ := ih (i + 1) bs bi
      refine ⟨bs', bi', ?_, hle, ?_, ?_⟩
      · rw [compareFold]
        simp only [hlt, if_false]
        exact heq
      · intro m' hm'
        rcases List.mem_cons.mp hm' with h | h
        · exact h ▸ le_trans (le_of_not_lt hlt) hle
        · exact hall m' h
      · rcases hattain with h | ⟨k, m', hget, hbi, hsim⟩
        · exact Or.inl h
        · exact Or.inr ⟨k + 1, m', hget, by omega, hsim⟩

theorem compareFold_start_spec (sqrtF : F → F) (probe : Embedding)
    (gallery : List FaceModel) (hne : gallery ≠ []) :
    ∃ bs bi m, compareFold sqrtF probe gallery 0 none = some (bs, bi) ∧
      gallery.get? bi = some m ∧
      Embedding.similarity sqrtF probe m.embedding = bs ∧
      ∀ m' ∈ gallery, Embedding.similarity sqrtF probe m'.embedding ≤ bs := by
  match gallery, hne with
  | m :: rest, _ =>
    obtain ⟨bs', bi', heq, hle, hall, hattain⟩ :=
      compareFold_some_spec sqrtF probe rest 1
        (Embedding.similarity sqrtF probe m.embedding) 0
    have hstep : compareFold sqrtF probe (m :: rest) 0 none =
        compareFold sqrtF probe rest 1
          (some (Embedding.similarity sqrtF probe m.embedding, 0)) := by
      rw [compareFold]
    refine ⟨bs', bi', ?_⟩
    rcases hattain with ⟨hbs, hbi⟩ | ⟨k, m', hget, hbi, hsim⟩
    · refine ⟨m, hstep ▸ heq, ?_, hbs.symm, ?_⟩
      · rw [hbi]; rfl
      · intro m' hm'
        rcases List.mem_cons.mp hm' with h | h
        · exact h ▸ hle
        · exact hall m' h
    · refine ⟨m', hstep ▸ heq, ?_, hsim, ?_⟩
      · rw [hbi, Nat.add_comm]; exact hget
      · intro m'' hm''
        rcases List.mem_cons.mp hm'' with h | h
        · exact h ▸ hle
        · exact hall m'' h

/-- Claim C2: `CosineMatcher.compare` reports `matched = true` exactly
when the maximum similarity over the gallery reaches the threshold, and
then returns that maximum together with the id and label of an entry
attaining it; the empty gallery yields `matched = false` with
`similarity = 0`. -/
theorem C2_cosine_matcher_compare_spec (sqrtF : F → F) (probe : Embedding)
    (gallery : List FaceModel) (threshold : F) :
    (gallery = [] →
      CosineMatcher.compare sqrtF probe gallery threshold =
        { matched := false, similarity := 0, model_id := none, model_label := none })
    ∧ (gallery ≠ [] →
      (∀ m ∈ gallery, Embedding.similarity sqrtF probe m.embedding ≤
        (CosineMatcher.compare sqrtF probe gallery threshold).similarity)
      ∧ (∃ m ∈ gallery, Embedding.similarity sqrtF probe m.embedding =
        (CosineMatcher.compare sqrtF probe gallery threshold).similarity)
      ∧ ((CosineMatcher.compare sqrtF probe gallery threshold).matched = true ↔
          threshold ≤ (CosineMatcher.compare sqrtF probe gallery threshold).similarity)
      ∧ ((CosineMatcher.compare sqrtF probe gallery threshold).matched = true →
          ∃ m ∈ gallery,
            (CosineMatcher.compare sqrtF probe gallery threshold).model_id = some m.id ∧
            (CosineMatcher.compare sqrtF probe gallery threshold).model_label = some m.label ∧
            Embedding.similarity sqrtF probe m.embedding =
              (CosineMatcher.compare sqrtF probe gallery threshold).similarity)) := by
  constructor
  · rintro rfl
    rfl
  · intro hne
    obtain ⟨bs, bi, m, heq, hget, hsim, hall⟩ :=
      compareFold_start_spec sqrtF probe gallery hne
    have hmem : m ∈ gallery := List.get?_mem hget
    by_cases hth : bs ≥ threshold
    · have hr : CosineMatcher.compare sqrtF probe gallery threshold =
          { matched := true, similarity := bs,
            model_id := (gallery.get? bi).map (fun m => m.id)
            model_label := (gallery.get? bi).map (fun m => m.label) } := by
        rw [CosineMatcher.compare, heq]
        simp only [hth, if_true]
      rw [hr]
      refine ⟨hall, ⟨m, hmem, hsim⟩, by simpa using hth, ?_⟩
      intro _
      exact ⟨m, hmem, by rw [hget]; rfl, by rw [hget]; rfl, hsim⟩
    · have hr : CosineMatcher.compare sqrtF probe gallery threshold =
          { matched := false, similarity := bs, model_id := none, model_label := none } := by
        rw [CosineMatcher.compare, heq]
        simp only [hth, if_false]
      rw [hr]
      refine ⟨hall, ⟨m, hmem, hsim⟩, ?_, ?_⟩
      · simp only [Bool.false_eq_true, false_iff]
        exact hth
      · intro h
        exact absurd h (by simp)

theorem compareFoldCount_spec (sqrtF : F → F) (probe : Embedding) (l : List FaceModel) :
    ∀ (i : Nat) (best : Option (F × Nat)) (calls : Nat),
      (compareFoldCount sqrtF probe l i (best, calls)).2 = calls + l.length ∧
      (compareFoldCount sqrtF probe l i (best, calls)).1 = compareFold sqrtF probe l i best := by
  induction l with
  | nil =>
    intro i best calls
    exact ⟨by simp [compareFoldCount], rfl⟩
  | cons m rest ih =>
    intro i best calls
    simp only [compareFoldCount, compareFold]
    refine ⟨?_, ?_⟩
    · rw [(ih (i + 1) _ (calls + 1)).1]
      simp only [List.length_cons]
      omega
    · exact (ih (i + 1) _ (calls + 1)).2

/-- Claim C3: one `CosineMatcher.compare` call performs exactly
`gallery.length` similarity (inner-product) evaluations — the
instrumented gallery loop counts one evaluation per entry with no early
exit, and computes the same best-match state as the uninstrumented
loop that `compare` uses. -/
theorem C3_compare_constant_time_traversal (sqrtF : F → F) (probe : Embedding)
    (gallery : List FaceModel) :
    compareSimilarityCalls sqrtF probe gallery = gallery.length
    ∧ (compareFoldCount sqrtF probe gallery 0 (none, 0)).1 =
        compareFold sqrtF probe gallery 0 none := by
  have h := compareFoldCount_spec sqrtF probe gallery 0 none 0
  exact ⟨by rw [compareSimilarityCalls, h.1]; omega, h.2⟩

theorem verifyLoop_pure (d : Frame → List BoundingBox) (e : Frame → BoundingBox → Embedding)
    (sqrtF : F → F) (gallery : List FaceModel) (threshold : F) (frames : List Frame) :
    ∀ (best : Option MatchResult) (bq : F) (anyFace : Bool),
      ∃ bq',
        verifyLoop (fun f => .ok (d f)) (fun f face => .ok (e f face)) sqrtF gallery threshold
          frames best bq anyFace =
        .ok (foldBest best (frameResults d e sqrtF gallery threshold frames), bq',
          anyFace || !(frameResults d e sqrtF gallery threshold frames).isEmpty) := by
  induction frames with
  | nil =>
    intro best bq anyFace
    exact ⟨bq, by simp [verifyLoop, foldBest, frameResults]⟩
  | cons f rest ih =>
    intro best bq anyFace
    match hface : (d f).head? with
    | none =>
      obtain ⟨bq', hrec⟩ := ih best bq anyFace
      refine ⟨bq', ?_⟩
      rw [verifyLoop]
      simp only [hface]
      simp [hrec, frameResults, List.filterMap_cons, hface]
    | some face =>
      have hres : frameResults d e sqrtF gallery threshold (f :: rest) =
          CosineMatcher.compare sqrtF (e f face) gallery threshold ::
            frameResults d e sqrtF gallery threshold rest := by
        simp only [frameResults, List.filterMap_cons, hface, Option.map_some']
      match best with
      | none =>
        obtain ⟨bq', hrec⟩ :=
          ih (some (CosineMatcher.compare sqrtF (e f face) gallery threshold))
            face.confidence true
        refine ⟨bq', ?_⟩
        rw [verifyLoop]
        simp only [hface]
        rw [hres]
        simp [hrec, foldBest, List.foldl_cons]
      | some prev =>
        by_cases hlt :
            prev.similarity < (CosineMatcher.compare sqrtF (e f face) gallery threshold).similarity
        · obtain ⟨bq', hrec⟩ :=
            ih (some (CosineMatcher.compare sqrtF (e f face) gallery threshold))
              face.confidence true
          refine ⟨bq', ?_⟩
          rw [verifyLoop]
          simp only [hface]
          rw [hres]
          simp [hrec, hlt, foldBest, List.foldl_cons]
        · obtain ⟨bq', hrec⟩ := ih (some prev) bq true
          refine ⟨bq', ?_⟩
          rw [verifyLoop]
          simp only [hface]
          rw [hres]
          simp [hrec, hlt, foldBest, List.foldl_cons]

theorem foldBest_some_spec (rs : List MatchResult) :
    ∀ (p : MatchResult),
      ∃ q, foldBest (some p) rs = some q ∧
        p.similarity ≤ q.similarity ∧
        (∀ r ∈ rs, r.similarity ≤ q.similarity) ∧
        (q = p ∨ ∃ k r, rs.get? k = some r ∧ q = r ∧ p.similarity < q.similarity ∧
          ∀ j r', j < k → rs.get? j = some r' → r'.similarity < q.similarity) := by
  induction rs with
  | nil =>
    intro p
    exact ⟨p, rfl, le_refl _, by simp, Or.inl rfl⟩
  | cons r rest ih =>
    intro p
    by_cases hlt : p.similarity < r.similarity
    · obtain ⟨q, heq, hle, hall, hattain⟩ := ih r
      have hstep : foldBest (some p) (r :: rest) = foldBest (some r) rest := by
        simp only [foldBest, List.foldl_cons, hlt, if_true]
      refine ⟨q, hstep ▸ heq, le_of_lt (lt_of_lt_of_le hlt hle), ?_, ?_⟩
      · intro r' hr'
        rcases List.mem_cons.mp hr' with h | h
        · exact h ▸ hle
        · exact hall r' h
      · rcases hattain with rfl | ⟨k, r', hget, hq, hplt, hbefore⟩
        · exact Or.inr ⟨0, q, rfl, rfl, lt_of_lt_of_le hlt hle, by omega⟩
        · refine Or.inr ⟨k + 1, r', hget, hq, lt_trans hlt hplt, ?_⟩
          intro j r'' hj hget'
          match j with
          | 0 =>
            have hr'' : r'' = r := by
              have h0 := hget'
              simp only [List.get?_cons_zero, Option.some.injEq] at h0
              exact h0.symm
            rw [hr'']
            exact hplt
          | j + 1 =>
            exact hbefore j r'' (by omega) (by simpa using hget')
    · obtain ⟨q, heq, hle, hall, hattain⟩ := ih p
      have hstep : foldBest (some p) (r :: rest) = foldBest (some p) rest := by
        simp only [foldBest, List.foldl_cons, hlt, if_false]
      refine ⟨q, hstep ▸ heq, hle, ?_, ?_⟩
      · intro r' hr'
        rcases List.mem_cons.mp hr' with h | h
        · exact h ▸ le_trans (le_of_not_lt hlt) hle
        · exact hall r' h
      · rcases hattain with h | ⟨k, r', hget, hq, hplt, hbefore⟩
        · exact Or.inl h
        · refine Or.inr ⟨k + 1, r', hget, hq, hplt, ?_⟩
          intro j r'' hj hget'
          match j with
          | 0 =>
            have hr'' : r'' = r := by
              have h0 := hget'
              simp only [List.get?_cons_zero, Option.some.injEq] at h0
              exact h0.symm
            rw [hr'']
            exact lt_of_le_of_lt (le_of_not_lt hlt) hplt
          | j + 1 =>
            exact hbefore j r'' (by omega) (by simpa using hget')

theorem foldBest_none_spec (rs : List MatchResult) (hne : rs ≠ []) :
    ∃ q k, foldBest none rs = some q ∧ rs.get? k = some q ∧
      (∀ r ∈ rs, r.similarity ≤ q.similarity) ∧
      (∀ j r', j < k → rs.get? j = some r' → r'.similarity < q.similarity) := by
  match rs, hne with
  | r :: rest, _ =>
    obtain ⟨q, heq, hle, hall, hattain⟩ := foldBest_some_spec rest r
    have hstep : foldBest none (r :: rest) = foldBest (some r) rest := by
      simp only [foldBest, List.foldl_cons]
    have hallcons : ∀ r' ∈ r :: rest, r'.similarity ≤ q.similarity := by
      intro r' hr'
      rcases List.mem_cons.mp hr' with h | h
      · exact h ▸ hle
      · exact hall r' h
    rcases hattain with rfl | ⟨k, r', hget, hq, hplt, hbefore⟩
    · exact ⟨q, 0, hstep ▸ heq, rfl, hallcons, by omega⟩
    · refine ⟨q, k + 1, hstep ▸ heq, ?_, hallcons, ?_⟩
      · rw [List.get?_cons_succ, hq]
        exact hget
      intro j r'' hj hget'
      match j with
      | 0 =>
        have hr'' : r'' = r := by
          have h0 := hget'
          simp only [List.get?_cons_zero, Option.some.injEq] at h0
          exact h0.symm
        rw [hr'']
        exact hplt
      | j + 1 =>
        exact hbefore j r'' (by omega) (by simpa using hget')

/-- Claim C4: with successful inference, each captured frame with at
least one detection has its top detection embedded and compared against
the gallery; the returned result is the one with the strictly highest
similarity across those frames (ties favor the earliest frame); when no
captured frame had a detection the call fails `NoFaceDetected`. -/
theorem C4_run_verify_best_frame (d : Frame → List BoundingBox)
    (e : Frame → BoundingBox → Embedding) (sqrtF : F → F) (gallery : List FaceModel)
    (threshold : F) (frames : List Frame) (dark_skipped : Nat) :
    (frameResults d e sqrtF gallery threshold frames = [] →
      run_verify (fun f => .ok (d f)) (fun f face => .ok (e f face)) sqrtF gallery
        threshold (.ok (frames, dark_skipped)) = .error .NoFaceDetected)
    ∧ (frameResults d e sqrtF gallery threshold frames ≠ [] →
      ∃ vr q k,
        run_verify (fun f => .ok (d f)) (fun f face => .ok (e f face)) sqrtF gallery
          threshold (.ok (frames, dark_skipped)) = .ok vr ∧
        vr.result = q ∧
        (frameResults d e sqrtF gallery threshold frames).get? k = some q ∧
        (∀ r ∈ frameResults d e sqrtF gallery threshold frames,
          r.similarity ≤ q.similarity) ∧
        (∀ j r', j < k → (frameResults d e sqrtF gallery threshold frames).get? j = some r' →
          r'.similarity < q.similarity)) := by
  constructor
  · intro hempty
    match frames with
    | [] => rfl
    | f :: rest =>
      obtain ⟨bq', hloop⟩ := verifyLoop_pure d e sqrtF gallery threshold (f :: rest) none 0 false
      rw [run_verify]
      simp only [List.isEmpty_cons, Bool.false_eq_true, if_false]
      rw [hloop, hempty]
      rfl
  · intro hne
    have hfne : frames ≠ [] := by
      intro h
      rw [h] at hne
      exact hne rfl
    obtain ⟨bq', hloop⟩ := verifyLoop_pure d e sqrtF gallery threshold frames none 0 false
    obtain ⟨q, k, hfold, hget, hall, hbefore⟩ :=
      foldBest_none_spec (frameResults d e sqrtF gallery threshold frames) hne
    match frames, hfne with
    | f :: rest, _ =>
      rw [run_verify]
      simp only [List.isEmpty_cons, Bool.false_eq_true, if_false]
      rw [hloop, hfold]
      have hnf : (frameResults d e sqrtF gallery threshold (f :: rest)).isEmpty = false :=
        List.isEmpty_eq_false.mpr hne
      rw [hnf]
      exact ⟨_, q, k, rfl, by simp, hget, hall, hbefore⟩

theorem takeUntilGood_zero (l : List RawBuf) : takeUntilGood l 0 = [] := by
  cases l with
  | nil => rfl
  | cons b rest => simp [takeUntilGood]

theorem range_map_shift (f : Nat → RawBuf) (fuel i : Nat) :
    (List.range (fuel + 1)).map (fun k => f (i + k)) =
      f i :: (List.range fuel).map (fun k => f (i + 1 + k)) := by
  rw [List.range_succ_eq_map, List.map_cons, List.map_map]
  simp only [Nat.add_zero]
  congr 1
  apply List.map_congr_left
  intro k _
  simp only [Function.comp_apply]
  congr 1
  omega

theorem captureLoop_success (f : Nat → RawBuf) (width height count : Nat) :
    ∀ (fuel i : Nat) (good : List Frame) (dark : Nat),
      captureLoop (fun j => some (f j)) width height count fuel i good dark =
        .ok (good ++ ((takeUntilGood ((List.range fuel).map (fun k => f (i + k)))
                (count - good.length)).filter
                (fun b => !is_dark_frame b.data (95/100))).map (keptFrame width height),
          dark + (takeUntilGood ((List.range fuel).map (fun k => f (i + k)))
              (count - good.length)).countP (fun b => is_dark_frame b.data (95/100))) := by
  intro fuel
  induction fuel with
  | zero =>
    intro i good dark
    simp [captureLoop, takeUntilGood]
  | succ fuel ih =>
    intro i good dark
    rw [range_map_shift]
    by_cases hfull : count ≤ good.length
    · have hk0 : count - good.length = 0 := by omega
      rw [captureLoop]
      simp [hfull, hk0, takeUntilGood]
    · have hk : count - good.length ≠ 0 := by omega
      cases hd : is_dark_frame (f i).data (95/100) with
      | true =>
        have hstep : captureLoop (fun j => some (f j)) width height count (fuel + 1) i good dark =
            captureLoop (fun j => some (f j)) width height count fuel (i + 1) good (dark + 1) := by
          rw [captureLoop]
          simp [hfull, hd]
        rw [hstep, ih (i + 1) good (dark + 1)]
        rw [takeUntilGood]
        simp only [hk, if_false, hd, if_true, List.filter_cons, List.countP_cons]
        simp [hd]
        omega
      | false =>
        have hstep : captureLoop (fun j => some (f j)) width height count (fuel + 1) i good dark =
            captureLoop (fun j => some (f j)) width height count fuel (i + 1)
              (good ++ [keptFrame width height (f i)]) dark := by
          rw [captureLoop]
          simp [hfull, hd]
          rfl
        rw [hstep, ih (i + 1) (good ++ [keptFrame width height (f i)]) dark]
        rw [takeUntilGood]
        simp only [hk, if_false, hd, Bool.false_eq_true, List.filter_cons, List.countP_cons]
        have hlen : count - (good ++ [keptFrame width height (f i)]).length =
            count - good.length - 1 := by
          simp only [List.length_append, List.length_cons, List.length_nil]
          omega
        rw [hlen]
        simp [hd]

theorem filter_takeUntilGood (l : List RawBuf) :
    ∀ k, (takeUntilGood l k).filter (fun b => !is_dark_frame b.data (95/100)) =
      (l.filter (fun b => !is_dark_frame b.data (95/100))).take k := by
  induction l with
  | nil => intro k; simp [takeUntilGood]
  | cons b rest ih =>
    intro k
    match k with
    | 0 => simp [takeUntilGood_zero]
    | k + 1 =>
      rw [takeUntilGood]
      simp only [Nat.succ_ne_zero, if_false]
      cases hd : is_dark_frame b.data (95/100) with
      | true =>
        simp only [hd, if_true, List.filter_cons]
        simp [hd, ih]
      | false =>
        simp only [hd, Bool.false_eq_true, if_false, List.filter_cons]
        simp [hd, ih]

theorem captureLoopInstr_spec (acquire : Nat → Option RawBuf) (width height count : Nat) :
    ∀ (fuel i : Nat) (good : List Frame) (dark deqs : Nat),
      (captureLoopInstr acquire width height count fuel i good dark deqs).2 ≤ deqs + fuel ∧
      (captureLoopInstr acquire width height count fuel i good dark deqs).1 =
        captureLoop acquire width height count fuel i good dark := by
  intro fuel
  induction fuel with
  | zero =>
    intro i good dark deqs
    exact ⟨by simp [captureLoopInstr], rfl⟩
  | succ fuel ih =>
    intro i good dark deqs
    rw [captureLoopInstr, captureLoop]
    by_cases hfull : count ≤ good.length
    · simp only [hfull, if_true]
      exact ⟨by omega, trivial⟩
    · simp only [hfull, if_false]
      cases hacq : acquire i with
      | none =>
        dsimp only
        exact ⟨by omega, rfl⟩
      | some buf =>
        dsimp only
        cases hd : is_dark_frame buf.data (95/100) with
        | true =>
          simp only [hd, if_true]
          have h := ih (i + 1) good (dark + 1) (deqs + 1)
          exact ⟨by have := h.1; omega, h.2⟩
        | false =>
          simp only [hd, Bool.false_eq_true, if_false]
          have hkfeq : ({ data := clahe_enhance buf.data width height 8 (2/100), width := width, height := height, sequence := buf.sequence, is_dark := false } : Frame) = keptFrame width height buf := rfl
          rw [hkfeq]
          have h := ih (i + 1) (good ++ [keptFrame width height buf]) dark (deqs + 1)
          exact ⟨by have := h.1; omega, h.2⟩

theorem captureLoop_failure (g : Nat → Option RawBuf) (width height count : Nat) :
    ∀ (j fuel i : Nat) (good : List Frame) (dark : Nat),
      j < fuel →
      g (i + j) = none →
      (∀ k, k < j → g (i + k) ≠ none) →
      good.length + ((List.range j).filterMap (fun k => g (i + k))).countP
        (fun b => !is_dark_frame b.data (95/100)) < count →
      captureLoop g width height count fuel i good dark =
        .error (.CaptureFailed "failed to dequeue buffer") := by
  intro j
  induction j with
  | zero =>
    intro fuel i good dark hfuel hnone _ hcount
    match fuel, hfuel with
    | fuel + 1, _ =>
      rw [captureLoop]
      have hgl : ¬count ≤ good.length := by
        simp only [List.range_zero, List.filterMap_nil, List.countP_nil] at hcount
        omega
      simp only [hgl, if_false]
      rw [Nat.add_zero] at hnone
      rw [hnone]
  | succ j ih =>
    intro fuel i good dark hfuel hnone hsome hcount
    match fuel, hfuel with
    | fuel + 1, _ =>
      have hgl : ¬count ≤ good.length := by omega
      obtain ⟨b, hb⟩ : ∃ b, g i = some b := by
        have := hsome 0 (by omega)
        rw [Nat.add_zero] at this
        exact Option.ne_none_iff_exists'.mp this
      have hpre : (List.range (j + 1)).filterMap (fun k => g (i + k)) =
          b :: (List.range j).filterMap (fun k => g (i + 1 + k)) := by
        rw [List.range_succ_eq_map, List.filterMap_cons]
        simp only [Nat.add_zero, hb, List.filterMap_map]
        have hfun : ((fun k => g (i + k)) ∘ Nat.succ) = (fun k => g (i + 1 + k)) := by
          funext k
          simp only [Function.comp_apply]
          congr 1
          omega
        rw [hfun]
      rw [hpre] at hcount
      have hnone' : g (i + 1 + j) = none := by
        have harg : i + 1 + j = i + (j + 1) := by omega
        rw [harg]
        exact hnone
      have hsome' : ∀ k, k < j → g (i + 1 + k) ≠ none := by
        intro k hk
        have harg : i + 1 + k = i + (k + 1) := by omega
        rw [harg]
        exact hsome (k + 1) (by omega)
      rw [captureLoop]
      simp only [hgl, if_false, hb]
      cases hd : is_dark_frame b.data (95/100) with
      | true =>
        simp only [hd, if_true]
        apply ih fuel (i + 1) good (dark + 1) (by omega) hnone' hsome'
        have hng : ¬((fun x : RawBuf => !is_dark_frame x.data (95/100)) b = true) := by
          simp [hd]
        rw [List.countP_cons_of_neg (fun x : RawBuf => !is_dark_frame x.data (95/100)) _ hng]
          at hcount
        exact hcount
      | false =>
        simp only [hd, Bool.false_eq_true, if_false]
        apply ih fuel (i + 1) _ dark (by omega) hnone' hsome'
        have hg : (fun x : RawBuf => !is_dark_frame x.data (95/100)) b = true := by
          simp [hd]
        rw [List.countP_cons_of_pos (fun x : RawBuf => !is_dark_frame x.data (95/100)) _ hg]
          at hcount
        simp only [List.length_append, List.length_cons, List.length_nil]
        omega

/-- Claim C5: `capture_frames(n)` performs at most `3·n` dequeues, keeps
the first `n` non-dark frames encountered (dark frames are skipped and
counted), applies CLAHE to each kept frame, returns the kept frames with
the dark-skip count, and fails `CaptureFailed` when a dequeue fails
mid-sequence. -/
theorem C5_capture_frames_spec (width height count : Nat) :
    (∀ f : Nat → RawBuf,
      capture_frames (fun i => some (f i)) width height count =
        .ok ((((((List.range (count * 3)).map f).filter
                (fun b => !is_dark_frame b.data (95/100))).take count).map
              (keptFrame width height)),
          (takeUntilGood ((List.range (count * 3)).map f) count).countP
            (fun b => is_dark_frame b.data (95/100))))
    ∧ (∀ acquire : Nat → Option RawBuf,
        captureDequeues acquire width height count ≤ count * 3 ∧
        (captureLoopInstr acquire width height count (count * 3) 0 [] 0 0).1 =
          capture_frames acquire width height count)
    ∧ (∀ (g : Nat → Option RawBuf) (j : Nat),
        j < count * 3 → g j = none → (∀ k, k < j → g k ≠ none) →
        ((List.range j).filterMap g).countP
            (fun b => !is_dark_frame b.data (95/100)) < count →
        capture_frames g width height count =
          .error (.CaptureFailed "failed to dequeue buffer")) := by
  refine ⟨?_, ?_, ?_⟩
  · intro f
    have h := captureLoop_success f width height count (count * 3) 0 [] 0
    have hfun : (fun k => f (0 + k)) = f := funext fun k => by rw [Nat.zero_add]
    rw [capture_frames, h, hfun]
    simp only [List.length_nil, Nat.sub_zero, List.nil_append, Nat.zero_add]
    rw [filter_takeUntilGood]
  · intro acquire
    have h := captureLoopInstr_spec acquire width height count (count * 3) 0 [] 0 0
    refine ⟨?_, h.2⟩
    simp only [captureDequeues]
    have := h.1
    omega
  · intro g j hj hnone hsome hcount
    rw [capture_frames]
    apply captureLoop_failure g width height count j (count * 3) 0 [] 0 hj
      (by rw [Nat.zero_add]; exact hnone)
      (fun k hk => by rw [Nat.zero_add]; exact hsome k hk)
    simp only [List.length_nil, Nat.zero_add]
    exact hcount

theorem warp_affine_length (frame : List Nat) (sw sh : Nat) (matrix : List F)
    (out_size : Nat) :
    (warp_affine frame sw sh matrix out_size).length = out_size * out_size := by
  rw [warp_affine]
  split
  · rw [List.length_replicate]
  · rw [List.length_map, List.length_range]

theorem samplePixel_oob (frame : List Nat) (sw sh : Nat) (x y : Int)
    (h : x < 0 ∨ (sw : Int) ≤ x ∨ y < 0 ∨ (sh : Int) ≤ y) :
    samplePixel frame sw sh x y = 0 := by
  rw [samplePixel, if_neg]
  rintro ⟨h1, h2, h3, h4⟩
  rcases h with h | h | h | h <;> omega

theorem rustRound_zero : rustRound 0 = 0 := by
  rw [rustRound, if_pos (le_refl (0 : F)), zero_add]
  rw [Int.floor_eq_iff]
  norm_num

theorem roundClampU8_zero : roundClampU8 0 = 0 := by
  rw [roundClampU8, rustRound_zero]
  decide

theorem warpPixel_oob (frame : List Nat) (sw sh : Nat) (ia ib tx ty : F) (ox oy : Nat)
    (h : (invMap ia ib tx ty ox oy).1 < -1 ∨ (sw : F) ≤ (invMap ia ib tx ty ox oy).1 ∨
      (invMap ia ib tx ty ox oy).2 < -1 ∨ (sh : F) ≤ (invMap ia ib tx ty ox oy).2) :
    warpPixel frame sw sh ia ib tx ty ox oy = 0 := by
  rw [warpPixel]
  rcases h with h | h | h | h
  · have hx0 : ∀ y : Int, samplePixel frame sw sh ⌊(invMap ia ib tx ty ox oy).1⌋ y = 0 := by
      intro y
      apply samplePixel_oob
      left
      have : ((⌊(invMap ia ib tx ty ox oy).1⌋ : Int) : F) ≤ (invMap ia ib tx ty ox oy).1 :=
        Int.floor_le _
      have hneg : ((⌊(invMap ia ib tx ty ox oy).1⌋ : Int) : F) < -1 := lt_of_le_of_lt this h
      have hZ : ⌊(invMap ia ib tx ty ox oy).1⌋ < -1 := by exact_mod_cast hneg
      omega
    have hx1 : ∀ y : Int,
        samplePixel frame sw sh (⌊(invMap ia ib tx ty ox oy).1⌋ + 1) y = 0 := by
      intro y
      apply samplePixel_oob
      left
      have : ((⌊(invMap ia ib tx ty ox oy).1⌋ : Int) : F) ≤ (invMap ia ib tx ty ox oy).1 :=
        Int.floor_le _
      have hneg : ((⌊(invMap ia ib tx ty ox oy).1⌋ : Int) : F) < -1 := lt_of_le_of_lt this h
      have : ⌊(invMap ia ib tx ty ox oy).1⌋ < -1 := by exact_mod_cast hneg
      omega
    simp only [hx0, hx1, zero_mul, add_zero, zero_add]
    exact roundClampU8_zero
  · have hge : (sw : Int) ≤ ⌊(invMap ia ib tx ty ox oy).1⌋ := Int.le_floor.mpr (by
      exact_mod_cast h)
    have hx0 : ∀ y : Int, samplePixel frame sw sh ⌊(invMap ia ib tx ty ox oy).1⌋ y = 0 := by
      intro y
      exact samplePixel_oob _ _ _ _ _ (Or.inr (Or.inl hge))
    have hx1 : ∀ y : Int,
        samplePixel frame sw sh (⌊(invMap ia ib tx ty ox oy).1⌋ + 1) y = 0 := by
      intro y
      exact samplePixel_oob _ _ _ _ _ (Or.inr (Or.inl (by omega)))
    simp only [hx0, hx1, zero_mul, add_zero, zero_add]
    exact roundClampU8_zero
  · have hy0 : ∀ x : Int, samplePixel frame sw sh x ⌊(invMap ia ib tx ty ox oy).2⌋ = 0 := by
      intro x
      apply samplePixel_oob
      right; right; left
      have : ((⌊(invMap ia ib tx ty ox oy).2⌋ : Int) : F) ≤ (invMap ia ib tx ty ox oy).2 :=
        Int.floor_le _
      have hneg : ((⌊(invMap ia ib tx ty ox oy).2⌋ : Int) : F) < -1 := lt_of_le_of_lt this h
      have hZ : ⌊(invMap ia ib tx ty ox oy).2⌋ < -1 := by exact_mod_cast hneg
      omega
    have hy1 : ∀ x : Int,
        samplePixel frame sw sh x (⌊(invMap ia ib tx ty ox oy).2⌋ + 1) = 0 := by
      intro x
      apply samplePixel_oob
      right; right; left
      have : ((⌊(invMap ia ib tx ty ox oy).2⌋ : Int) : F) ≤ (invMap ia ib tx ty ox oy).2 :=
        Int.floor_le _
      have hneg : ((⌊(invMap ia ib tx ty ox oy).2⌋ : Int) : F) < -1 := lt_of_le_of_lt this h
      have : ⌊(invMap ia ib tx ty ox oy).2⌋ < -1 := by exact_mod_cast hneg
      omega
    simp only [hy0, hy1, mul_zero, zero_mul, add_zero, zero_add]
    exact roundClampU8_zero
  · have hge : (sh : Int) ≤ ⌊(invMap ia ib tx ty ox oy).2⌋ := Int.le_floor.mpr (by
      exact_mod_cast h)
    have hy0 : ∀ x : Int, samplePixel frame sw sh x ⌊(invMap ia ib tx ty ox oy).2⌋ = 0 := by
      intro x
      exact samplePixel_oob _ _ _ _ _ (Or.inr (Or.inr (Or.inr hge)))
    have hy1 : ∀ x : Int,
        samplePixel frame sw sh x (⌊(invMap ia ib tx ty ox oy).2⌋ + 1) = 0 := by
      intro x
      exact samplePixel_oob _ _ _ _ _ (Or.inr (Or.inr (Or.inr (by omega))))
    simp only [hy0, hy1, mul_zero, zero_mul, add_zero, zero_add]
    exact roundClampU8_zero

theorem warp_affine_singular (frame : List Nat) (sw sh : Nat) (matrix : List F)
    (out_size : Nat)
    (h : |matrix.getD 0 0 * matrix.getD 0 0 + matrix.getD 3 0 * matrix.getD 3 0| <
      1/1000000000000) :
    warp_affine frame sw sh matrix out_size = List.replicate (out_size * out_size) 0 := by
  rw [warp_affine, if_pos h]

/-- Claim C9: for a frame buffer of at least `width·height` bytes and
five landmarks, `align_face` is total and yields exactly `112·112`
bytes; sampling an out-of-bounds source coordinate yields 0, an output
pixel whose whole inverse-mapped sampling neighbourhood lies outside the
frame is 0, and a singular (near-zero determinant) transform yields the
all-zero `112·112` output instead of failing. -/
theorem C9_align_face_total (frame : List Nat) (width height : Nat)
    (landmarks : List (F × F)) (hlen : width * height ≤ frame.length)
    (h5 : landmarks.length = 5) :
    (align_face frame width height landmarks).length = 112 * 112
    ∧ (∀ (x y : Int), (x < 0 ∨ (width : Int) ≤ x ∨ y < 0 ∨ (height : Int) ≤ y) →
        samplePixel frame width height x y = 0)
    ∧ (∀ (ia ib tx ty : F) (ox oy : Nat),
        ((invMap ia ib tx ty ox oy).1 < -1 ∨ (width : F) ≤ (invMap ia ib tx ty ox oy).1 ∨
          (invMap ia ib tx ty ox oy).2 < -1 ∨ (height : F) ≤ (invMap ia ib tx ty ox oy).2) →
        warpPixel frame width height ia ib tx ty ox oy = 0)
    ∧ (∀ (matrix : List F) (out_size : Nat),
        |matrix.getD 0 0 * matrix.getD 0 0 + matrix.getD 3 0 * matrix.getD 3 0| <
          1/1000000000000 →
        warp_affine frame width height matrix out_size =
          List.replicate (out_size * out_size) 0) := by
  refine ⟨?_, ?_, ?_, ?_⟩
  · rw [align_face, warp_affine_length]
    rfl
  · intro x y h
    exact samplePixel_oob frame width height x y h
  · intro ia ib tx ty ox oy h
    exact warpPixel_oob frame width height ia ib tx ty ox oy h
  · intro matrix out_size h
    exact warp_affine_singular frame width height matrix out_size h

/-- Claim C9 witness: a concrete 2×2 frame with five landmarks. -/
theorem C9_align_face_total_witness :
    (align_face (List.replicate 4 0) 2 2
      [((38 : F), 51), (73, 51), (56, 71), (41, 92), (70, 92)]).length = 112 * 112 :=
  (C9_align_face_total (List.replicate 4 0) 2 2
    [((38 : F), 51), (73, 51), (56, 71), (41, 92), (70, 92)]
    (by simp) (by simp)).1

end Visage
